import Mathlib

/-!
Verification of the request-execution core of the `vanta` Python client
(`vanta/api.py` of booyasatoshi/vanta): the OAuth token exchange
`_get_access_token`, the request executor `_make_request` with its
401-refresh-and-retry and 429 handling, the pagination traversal
`get_all_organizations`, and the rate limiter instantiated in
`VantaAPI.__init__`.

Python dynamic values are embedded as a JSON inductive; Python exceptions
are embedded as an error inductive and fallible code returns `Except`.
The HTTP transport is embedded as the list of responses the successive
`requests.request` calls receive, and the token endpoint as the list of
responses the successive `requests.post` calls in `_get_access_token`
receive.
-/

namespace Vanta

/-- A JSON value, as returned by `response.json()` in `requests`.
Numbers are restricted to integers (no claim concerns numeric bodies). -/
inductive Json where
  | null
  | bool (b : Bool)
  | num (n : ℤ)
  | str (s : String)
  | arr (elems : List Json)
  | obj (fields : List (String × Json))

/-- Python truthiness of a JSON value: `None`, `False`, `0`, the empty
string, the empty list and the empty dict are falsy, everything else is
truthy. -/
def Json.truthy : Json → Bool
  | .null => false
  | .bool b => b
  | .num n => n != 0
  | .str s => !s.isEmpty
  | .arr xs => !xs.isEmpty
  | .obj fs => !fs.isEmpty

/-- Python membership `k in j` for a string `k`: key membership for a dict,
element membership for a list, substring test for a string; on `None`,
numbers and booleans Python raises `TypeError`, rendered as `none`. -/
def Json.mem (j : Json) (k : String) : Option Bool :=
  match j with
  | .obj fs => some (fs.any (fun f => f.1 == k))
  | .arr xs => some (xs.any (fun e => match e with | .str s => s == k | _ => false))
  | .str s => some (if k.isEmpty then true else (s.splitOn k).length > 1)
  | _ => none

/-- Python indexing `j[k]` for a string key: the value at the key for a
dict; `none` when the key is absent (Python `KeyError`) or when `j` is not
a dict (Python `TypeError`: string indices must be integers). -/
def Json.getKey (j : Json) (k : String) : Option Json :=
  match j with
  | .obj fs => fs.lookup k
  | _ => none

/-- Python `j.get(k)`: defined for dicts only (`none` models the
`AttributeError` raised on any other type); `some none` is a present call
on a dict that lacks the key (Python returns `None`). -/
def Json.pyGet (j : Json) (k : String) : Option (Option Json) :=
  match j with
  | .obj fs => some (fs.lookup k)
  | _ => none

/-- The sequence Python iterates over in `results.extend(x)`: a list yields
its elements, a string its one-character substrings, a dict its keys;
`None`, numbers and booleans are not iterable (Python `TypeError`,
rendered as `none`). -/
def Json.pyElems : Json → Option (List Json)
  | .arr xs => some xs
  | .str s => some (s.data.map (fun c => Json.str (String.mk [c])))
  | .obj fs => some (fs.map (fun f => Json.str f.1))
  | _ => none

/-- The exception surface of `vanta/api.py`, mirroring the Python exception
types actually raised: `requests.exceptions.HTTPError` from
`raise_for_status` (carrying the status code), the generic
`Exception("Rate limit exceeded. Please wait and retry.")` raised on 429,
`KeyError` from a missing `access_token` field, a JSON decode failure from
`response.json()`, `TypeError` and `AttributeError` from dynamic typing,
and connection-level failures raised by `requests` itself (which the
`except HTTPError` handler does not catch). -/
inductive VErr where
  | httpError (status : ℕ)
  | rateLimitExceeded
  | keyError
  | jsonDecodeError
  | typeError
  | attrError
  | transport
deriving Repr, DecidableEq

/-- `requests.Response.raise_for_status`: raises `HTTPError` exactly for
status codes in `[400, 600)`. -/
def raise_for_status (status : ℕ) : Option VErr :=
  if 400 ≤ status ∧ status < 600 then some (.httpError status) else none

/-- A response of the OAuth token endpoint, projected to the two fields
`_get_access_token` reads: the HTTP status, and the `access_token` field of
the JSON body (`none` when the field is absent). -/
structure TokenResponse where
  status : ℕ
  access_token : Option String
deriving Repr, DecidableEq

/-- `VantaAPI._get_access_token`: posts the client credentials to the token
endpoint, calls `raise_for_status` on the response, and returns
`response.json()["access_token"]` — a `KeyError` when the field is
missing. -/
def get_access_token (t : TokenResponse) : Except VErr String :=
  match raise_for_status t.status with
  | some e => .error e
  | none =>
    match t.access_token with
    | some tok => .ok tok
    | none => .error .keyError

/-- The body of an HTTP response as seen by `_make_request`:
empty (`response.content` falsy), non-empty but not parseable as JSON
(`response.json()` raises), or non-empty and parsing to a JSON value. -/
inductive Body where
  | empty
  | invalid
  | json (j : Json)

/-- An HTTP response as seen by `_make_request`: status code and body. -/
structure HttpResponse where
  status_code : ℕ
  body : Body

/-- Python dict assignment `d[k] = v` on a string-valued dict represented
as an association list: replace the binding if the key is present,
otherwise append it. -/
def setKey : List (String × String) → String → String → List (String × String)
  | [], k, v => [(k, v)]
  | (k0, v0) :: rest, k, v =>
    if k0 == k then (k, v) :: rest else (k0, v0) :: setKey rest k v

/-- The mutable state of a `VantaAPI` instance (minus the rate limiter,
which is modelled separately): credentials, base URL, the current
`api_key`, and the `headers` dict. -/
structure Client where
  client_id : String
  client_secret : String
  base_url : String
  api_key : String
  headers : List (String × String)

/-- `VantaAPI.__init__(client_id, client_secret, base_url)`: performs one
token exchange (whose failure propagates out of the constructor), stores
the minted token as `api_key` and builds the headers dict
`{"Authorization": "Bearer <api_key>", "Content-Type": "application/json"}`.
There is no `api_key` parameter: the constructor signature is exactly
`(self, client_id, client_secret, base_url)`. -/
def VantaAPI.init (client_id client_secret base_url : String)
    (tok : TokenResponse) : Except VErr Client :=
  match get_access_token tok with
  | .error e => .error e
  | .ok key => .ok
      { client_id := client_id
        client_secret := client_secret
        base_url := base_url
        api_key := key
        headers := [("Authorization", "Bearer " ++ key),
                    ("Content-Type", "application/json")] }

/-- Parameter names of `VantaAPI.__init__` in `vanta/api.py`, besides
`self`; a keyword argument outside this list raises `TypeError`. -/
def initParamNames : List String := ["client_id", "client_secret", "base_url"]

/-- The query-parameter dict built by the pagination loops: `pageSize` is
set up front, and `pageCursor` (initially absent) is overwritten with the
`endCursor` of each page. -/
structure Params where
  pageSize : ℤ
  pageCursor : Option Json

/-- The request handed to one `requests.request` call inside
`_make_request`: method, URL, the headers dict at send time, the JSON
body, and the query parameters. -/
structure SentRequest where
  method : String
  url : String
  headers : List (String × String)
  data : Option Json
  params : Option Params

/-- The outcome of one logical `_make_request` call: the value returned or
the exception raised, the client state afterwards, the requests handed to
`requests.request` in order, the tokens minted by 401-triggered refreshes
in order, and the number of rate-limiter acquisitions
(`with self.rate_limiter` entries) performed. -/
structure ReqOutcome where
  result : Except VErr (Option Json)
  client : Client
  sent : List SentRequest
  minted : List String
  acquired : ℕ

/-- `VantaAPI._make_request(method, endpoint, data, params)`. Builds
`url = base_url + "/" + endpoint`, enters the rate limiter, sends the
request, and on success returns `response.json() if response.content else
None`. On `HTTPError`: status 401 refreshes the token via
`_get_access_token`, updates `self.api_key` and
`self.headers["Authorization"]`, and re-invokes `_make_request` with the
same arguments (an unbounded recursion); status 429 raises the rate-limit
`Exception`; any other status re-raises the `HTTPError`. The transport is
the list of responses successive sends receive (an exhausted list models a
connection-level failure on send) and the list of token-endpoint responses
consumed by refreshes (exhausted likewise). -/
def make_request (method endpoint : String) (data : Option Json)
    (params : Option Params) :
    Client → List HttpResponse → List TokenResponse → ReqOutcome
  | c, [], _ =>
    ⟨.error .transport, c,
      [⟨method, c.base_url ++ "/" ++ endpoint, c.headers, data, params⟩], [], 1⟩
  | c, r :: rs, toks =>
    let req : SentRequest :=
      ⟨method, c.base_url ++ "/" ++ endpoint, c.headers, data, params⟩
    match raise_for_status r.status_code with
    | none =>
      match r.body with
      | .empty => ⟨.ok none, c, [req], [], 1⟩
      | .invalid => ⟨.error .jsonDecodeError, c, [req], [], 1⟩
      | .json j => ⟨.ok (some j), c, [req], [], 1⟩
    | some e =>
      if r.status_code = 401 then
        match toks with
        | [] => ⟨.error .transport, c, [req], [], 1⟩
        | t :: ts =>
          match get_access_token t with
          | .error e2 => ⟨.error e2, c, [req], [], 1⟩
          | .ok tok =>
            let c2 : Client :=
              { c with api_key := tok,
                       headers := setKey c.headers "Authorization" ("Bearer " ++ tok) }
            let sub := make_request method endpoint data params c2 rs ts
            ⟨sub.result, sub.client, req :: sub.sent, tok :: sub.minted,
              sub.acquired + 1⟩
      else if r.status_code = 429 then
        ⟨.error .rateLimitExceeded, c, [req], [], 1⟩
      else
        ⟨.error e, c, [req], [], 1⟩

/-- The result of a pagination loop: the accumulated records on a normal
break, a propagated exception, or fuel exhaustion (modelling a
non-terminating `while True` loop). -/
inductive PagerResult where
  | records (rs : List Json)
  | err (e : VErr)
  | diverge

/-- A pagination-loop outcome: the result together with the parameter
dicts of the successive `_make_request` calls issued, in order. -/
structure PagerOut where
  result : PagerResult
  calls : List Params

/-- The body of the `while True` loop shared by `get_all_organizations`,
`get_all_users`, `get_all_controls`, `get_all_evidence` and
`get_all_audits`, with `server` abstracting
`self._make_request("GET", endpoint, params=params)` (its returned value
or raised exception). Per iteration: break when the response is falsy or
lacks a `"data"` key; `results.extend(response["data"])`; break when
`"pageInfo"` is absent or `response["pageInfo"].get("hasNextPage")` is
falsy; otherwise set `params["pageCursor"] =
response["pageInfo"]["endCursor"]` and loop. -/
def get_all_pages (server : Params → Except VErr (Option Json)) :
    ℕ → Params → List Json → List Params → PagerOut
  | 0, _, _, calls => ⟨.diverge, calls⟩
  | fuel + 1, params, results, calls =>
    match server params with
    | .error e => ⟨.err e, calls ++ [params]⟩
    | .ok response =>
      let calls := calls ++ [params]
      match response with
      | none => ⟨.records results, calls⟩
      | some j =>
        if !j.truthy then ⟨.records results, calls⟩
        else match j.mem "data" with
        | none => ⟨.err .typeError, calls⟩
        | some false => ⟨.records results, calls⟩
        | some true =>
          match j.getKey "data" with
          | none => ⟨.err .typeError, calls⟩
          | some d =>
            match d.pyElems with
            | none => ⟨.err .typeError, calls⟩
            | some recs =>
              let results := results ++ recs
              match j.mem "pageInfo" with
              | none => ⟨.err .typeError, calls⟩
              | some false => ⟨.records results, calls⟩
              | some true =>
                match j.getKey "pageInfo" with
                | none => ⟨.err .typeError, calls⟩
                | some pi =>
                  match pi.pyGet "hasNextPage" with
                  | none => ⟨.err .attrError, calls⟩
                  | some hn =>
                    if !(match hn with | none => false | some v => v.truthy) then
                      ⟨.records results, calls⟩
                    else match pi.getKey "endCursor" with
                    | none => ⟨.err .keyError, calls⟩
                    | some cur =>
                      get_all_pages server fuel
                        ⟨params.pageSize, some cur⟩ results calls

/-- `VantaAPI.get_all_organizations(page_size)`: runs the pagination loop
starting from `params = {"pageSize": page_size}`, with an empty
accumulator. The per-resource clones differ only in the endpoint the
`server` oracle stands for. -/
def get_all_organizations (server : Params → Except VErr (Option Json))
    (page_size : ℤ) (fuel : ℕ) : PagerOut :=
  get_all_pages server fuel ⟨page_size, none⟩ [] []

/-- A list-endpoint page envelope
`{ "data": recs, "pageInfo": { "hasNextPage": hn, "endCursor": cur } }`. -/
def page (recs : List Json) (hn : Bool) (cur : Json) : Json :=
  .obj [("data", .arr recs),
        ("pageInfo", .obj [("hasNextPage", .bool hn), ("endCursor", cur)])]

/-- Modelled from the spec: the `RateLimiter` class of the third-party
`ratelimiter` package, which `vanta/api.py` imports and instantiates as
`RateLimiter(max_calls=50, period=60)` but whose code is not part of this
repository. Per spec section 4.2 the limiter records the timestamps of
admitted calls, admits a call immediately when fewer than `max_calls`
admitted calls lie in the trailing window of length `period`, and
otherwise suspends the caller until the oldest of the last `max_calls`
recorded calls leaves the window (waits clamped to be non-negative); per
spec section 5 an internal lock serialises entries, so a call is never
admitted before a previously admitted call. Time is modelled by
rationals. -/
structure RateLimiter where
  max_calls : ℕ
  period : ℚ
  calls : List ℚ

/-- The number of admitted calls lying in the trailing half-open window
`(t - period, t]`. -/
def windowCount (period : ℚ) (calls : List ℚ) (t : ℚ) : ℕ :=
  calls.countP (fun s => decide (t - period < s ∧ s ≤ t))

/-- The effective entry time of a caller requesting at time `t`: the
internal lock serialises entries, so the caller reaches the admission
check no earlier than every previously recorded admission. -/
def entryTime (rl : RateLimiter) (t : ℚ) : ℚ := rl.calls.foldl max t

/-- The admission time of a caller requesting at time `t`: immediate when
fewer than `max_calls` admitted calls lie in the trailing window at the
entry time, otherwise the instant the oldest of the last `max_calls`
recorded admissions leaves the window (never earlier than the entry
time, so the wait is never negative). -/
def admissionTime (rl : RateLimiter) (t : ℚ) : ℚ :=
  if windowCount rl.period rl.calls (entryTime rl t) < rl.max_calls then
    entryTime rl t
  else
    ((rl.calls.drop (rl.calls.length - rl.max_calls)).headD (entryTime rl t))
      + rl.period

/-- One acquisition at request time `t`: block until the admission time,
record the admission, and return it with the updated limiter. -/
def RateLimiter.acquire (rl : RateLimiter) (t : ℚ) : ℚ × RateLimiter :=
  (admissionTime rl t,
    ⟨rl.max_calls, rl.period, rl.calls ++ [admissionTime rl t]⟩)

/-- Run a sequence of acquisitions at the given request times, returning
the admission times in order and the final limiter state. -/
def RateLimiter.run (rl : RateLimiter) : List ℚ → List ℚ × RateLimiter
  | [] => ([], rl)
  | t :: ts =>
    let p := rl.acquire t
    let q := p.2.run ts
    (p.1 :: q.1, q.2)

/-- The limiter as constructed in `VantaAPI.__init__`:
`RateLimiter(max_calls=50, period=60)`, no calls recorded yet. -/
def initRateLimiter : RateLimiter := ⟨50, 60, []⟩

/-- Invariant of the rate-limiter state: admissions are recorded in
nondecreasing order, and every trailing window of length `period` holds
at most `max_calls` admissions. -/
def RLInv (rl : RateLimiter) : Prop :=
  rl.calls.Sorted (· ≤ ·) ∧
    ∀ t : ℚ, windowCount rl.period rl.calls t ≤ rl.max_calls

/-- The Authorization-header invariant: the `headers` dict maps
`"Authorization"` to `"Bearer " ++ api_key` for the currently stored
key. -/
def authInv (c : Client) : Prop :=
  c.headers.lookup "Authorization" = some ("Bearer " ++ c.api_key)

/-- A concrete client state (as left by a construction that minted the
token `"k0"`), used by witnesses and counterexamples. -/
def initialClient : Client :=
  ⟨"id", "secret", "https://api.vanta.com/v1", "k0",
    [("Authorization", "Bearer k0"), ("Content-Type", "application/json")]⟩

/-- A concrete three-page server: two records per page, has-more true on
the first two pages, false on the third. -/
def threePageServer : Params → Except VErr (Option Json) := fun p =>
  match p.pageCursor with
  | none => .ok (some (page [.str "r1", .str "r2"] true (.str "c1")))
  | some (.str "c1") => .ok (some (page [.str "r3", .str "r4"] true (.str "c2")))
  | some (.str "c2") => .ok (some (page [.str "r5", .str "r6"] false (.str "c3")))
  | _ => .ok none

/-- A concrete server whose every response has no data field (a `None`
response body). -/
def emptyServer : Params → Except VErr (Option Json) := fun _ => .ok none

/-- C10: every request `_make_request` hands to the transport — including
each 401-triggered retry, which re-invokes `_make_request` and so
re-enters `with self.rate_limiter` — is preceded by its own rate-limiter
acquisition: in every outcome the number of acquisitions equals the
number of requests sent, so no outbound request bypasses the limiter. -/
theorem c10_every_send_rate_limited (method endpoint : String)
    (data : Option Json) (params : Option Params) (c : Client)
    (rs : List HttpResponse) (ts : List TokenResponse) :
    (make_request method endpoint data params c rs ts).acquired =
      (make_request method endpoint data params c rs ts).sent.length := by
  induction rs generalizing c ts with
  | nil => rfl
  | cons r rs ih =>
    simp only [make_request]
    split
    · split <;> rfl
    · split
      · split
        · rfl
        · split
          · rfl
          · simp only [List.length_cons]
            exact congrArg (· + 1) (ih _ _)
      · split <;> rfl

/-- C3: a request whose response is HTTP 429 triggers no internal retry:
exactly the one request is sent, no token is minted, and `_make_request`
raises the rate-limit failure, a constructor distinct from the HTTP,
key-error and transport failures. -/
theorem c3_429_no_retry (method endpoint : String) (data : Option Json)
    (params : Option Params) (c : Client) (r : HttpResponse)
    (rs : List HttpResponse) (ts : List TokenResponse)
    (h : r.status_code = 429) :
    (make_request method endpoint data params c (r :: rs) ts).result =
        .error .rateLimitExceeded ∧
      (make_request method endpoint data params c (r :: rs) ts).sent.length = 1 ∧
      (make_request method endpoint data params c (r :: rs) ts).minted = [] ∧
      (∀ st, VErr.rateLimitExceeded ≠ VErr.httpError st) ∧
      VErr.rateLimitExceeded ≠ VErr.keyError ∧
      VErr.rateLimitExceeded ≠ VErr.transport := by
  obtain ⟨sc, body⟩ := r
  simp only at h
  subst h
  exact ⟨rfl, rfl, rfl, fun st hst => VErr.noConfusion hst,
    fun hst => VErr.noConfusion hst, fun hst => VErr.noConfusion hst⟩

/-- Witness for C3: a concrete 429 response. -/
theorem c3_429_no_retry_witness :
    (⟨429, Body.empty⟩ : HttpResponse).status_code = 429 ∧
      (make_request "GET" "organizations" none none initialClient
          [⟨429, .empty⟩] []).result = .error .rateLimitExceeded :=
  ⟨rfl, (c3_429_no_retry "GET" "organizations" none none initialClient
    ⟨429, .empty⟩ [] [] rfl).1⟩

/-- C6: a 2xx response with an empty body makes `_make_request` return
`None` (no JSON parse is attempted), and a 2xx response with a non-empty
JSON body makes it return the parsed body; in both cases exactly the one
request is sent. -/
theorem c6_2xx_body (method endpoint : String) (data : Option Json)
    (params : Option Params) (c : Client) (r : HttpResponse)
    (rs : List HttpResponse) (ts : List TokenResponse)
    (h2 : 200 ≤ r.status_code) (h3 : r.status_code < 300) :
    (r.body = .empty →
        (make_request method endpoint data params c (r :: rs) ts).result =
          .ok none) ∧
      (∀ j, r.body = .json j →
        (make_request method endpoint data params c (r :: rs) ts).result =
          .ok (some j)) ∧
      (make_request method endpoint data params c (r :: rs) ts).sent.length = 1 := by
  obtain ⟨sc, body⟩ := r
  simp only at h2 h3
  have hrs : raise_for_status sc = none := by
    unfold raise_for_status
    rw [if_neg (by omega)]
  refine ⟨fun hb => ?_, fun j hb => ?_, ?_⟩
  · simp only at hb
    subst hb
    simp only [make_request, hrs]
  · simp only at hb
    subst hb
    simp only [make_request, hrs]
  · simp only [make_request, hrs]
    cases body <;> rfl

/-- Witness for C6: a concrete 204 empty-body response (a successful
delete) and a concrete 200 response with a JSON body. -/
theorem c6_2xx_body_witness :
    (200 ≤ 204 ∧ 204 < 300 ∧
      (make_request "DELETE" "organizations/org1" none none initialClient
          [⟨204, .empty⟩] []).result = .ok none) ∧
    (200 ≤ 200 ∧ 200 < 300 ∧
      (make_request "GET" "organizations" none none initialClient
          [⟨200, .json (.str "body")⟩] []).result = .ok (some (.str "body"))) :=
  ⟨⟨by decide, by decide,
      (c6_2xx_body "DELETE" "organizations/org1" none none initialClient
        ⟨204, .empty⟩ [] [] (by decide) (by decide)).1 rfl⟩,
    ⟨le_refl 200, by decide,
      (c6_2xx_body "GET" "organizations" none none initialClient
        ⟨200, .json (.str "body")⟩ [] [] (le_refl 200) (by decide)).2.1
        (.str "body") rfl⟩⟩

/-- C7: the token exchange fails exactly when the token endpoint answers
with an error status (the range `raise_for_status` raises on) or with a
success status whose body lacks the `access_token` field; otherwise it
returns the token string from the response. -/
theorem c7_token_exchange (t : TokenResponse) (hv : t.status < 600) :
    (400 ≤ t.status →
        get_access_token t = .error (.httpError t.status)) ∧
      (t.status < 400 → t.access_token = none →
        get_access_token t = .error .keyError) ∧
      (∀ s, t.status < 400 → t.access_token = some s →
        get_access_token t = .ok s) := by
  obtain ⟨st, tok⟩ := t
  simp only at hv ⊢
  refine ⟨fun h4 => ?_, fun h4 hn => ?_, fun s h4 hs => ?_⟩
  · unfold get_access_token raise_for_status
    simp only
    rw [if_pos ⟨h4, hv⟩]
  · subst hn
    unfold get_access_token raise_for_status
    simp only
    rw [if_neg (by omega)]
  · subst hs
    unfold get_access_token raise_for_status
    simp only
    rw [if_neg (by omega)]

/-- Witness for C7: a 200 response carrying a token, a 401 response, and
a 200 response lacking the token field. -/
theorem c7_token_exchange_witness :
    (200 < 600 ∧ 200 < 400 ∧
        get_access_token ⟨200, some "tok"⟩ = .ok "tok") ∧
      (401 < 600 ∧ 400 ≤ 401 ∧
        get_access_token ⟨401, none⟩ = .error (.httpError 401)) ∧
      (200 < 600 ∧ 200 < 400 ∧
        get_access_token ⟨200, none⟩ = .error .keyError) :=
  ⟨⟨by decide, by decide,
      (c7_token_exchange ⟨200, some "tok"⟩ (by decide)).2.2 "tok" (by decide) rfl⟩,
    ⟨by decide, by decide,
      (c7_token_exchange ⟨401, none⟩ (by decide)).1 (by decide)⟩,
    ⟨by decide, by decide,
      (c7_token_exchange ⟨200, none⟩ (by decide)).2.1 (by decide) rfl⟩⟩

/-- C8 (code bug): the code offers no static-API-key authentication mode.
`api_key` is not among the constructor parameters — so the test-suite
call `VantaAPI(api_key="dummy_key")` raises `TypeError` — and every
construction performs the OAuth token exchange, the stored key always
being the token the exchange minted, never a caller-supplied key. -/
theorem c8_no_static_key_mode :
    "api_key" ∉ initParamNames ∧
      ∀ cid csec burl tk,
        (VantaAPI.init cid csec burl tk).toOption.map Client.api_key =
          (get_access_token tk).toOption := by
  refine ⟨by decide, fun cid csec burl tk => ?_⟩
  unfold VantaAPI.init
  cases get_access_token tk <;> rfl

/-- C1 counterexample: a trace in which the 401-triggered retry itself
receives 401. The claim requires the second 401 to surface an auth
failure with no further retry (at most 2 requests, 1 refresh); the code
instead refreshes a second time, sends a third request, and returns the
success of the third attempt: 3 requests sent, 2 tokens minted. -/
theorem c1_counterexample :
    (make_request "GET" "organizations" none none initialClient
          [⟨401, .empty⟩, ⟨401, .empty⟩, ⟨200, .json (.str "payload")⟩]
          [⟨200, some "t1"⟩, ⟨200, some "t2"⟩]).sent.length = 3 ∧
      (make_request "GET" "organizations" none none initialClient
          [⟨401, .empty⟩, ⟨401, .empty⟩, ⟨200, .json (.str "payload")⟩]
          [⟨200, some "t1"⟩, ⟨200, some "t2"⟩]).result =
        .ok (some (.str "payload")) ∧
      (make_request "GET" "organizations" none none initialClient
          [⟨401, .empty⟩, ⟨401, .empty⟩, ⟨200, .json (.str "payload")⟩]
          [⟨200, some "t1"⟩, ⟨200, some "t2"⟩]).minted = ["t1", "t2"] :=
  ⟨rfl, rfl, rfl⟩

/-- C1 amended: an HTTP 401 response triggers one token refresh and one
retry of the same request (same method, URL, body and query), but the
retry is a full re-invocation and is not bounded to one: `k` consecutive
401 responses followed by a success yield `k` refreshes and `k + 1`
sends of the identical request, with the final success returned and no
auth failure surfaced by `_make_request`. -/
theorem c1_unbounded_retry (k : ℕ) (method endpoint : String)
    (data : Option Json) (params : Option Params) (c : Client) (j : Json)
    (s : String) :
    (make_request method endpoint data params c
          (List.replicate k ⟨401, .empty⟩ ++ [⟨200, .json j⟩])
          (List.replicate k ⟨200, some s⟩)).result = .ok (some j) ∧
      (make_request method endpoint data params c
          (List.replicate k ⟨401, .empty⟩ ++ [⟨200, .json j⟩])
          (List.replicate k ⟨200, some s⟩)).sent.length = k + 1 ∧
      (make_request method endpoint data params c
          (List.replicate k ⟨401, .empty⟩ ++ [⟨200, .json j⟩])
          (List.replicate k ⟨200, some s⟩)).minted = List.replicate k s ∧
      ∀ q ∈ (make_request method endpoint data params c
          (List.replicate k ⟨401, .empty⟩ ++ [⟨200, .json j⟩])
          (List.replicate k ⟨200, some s⟩)).sent,
        q.method = method ∧ q.url = c.base_url ++ "/" ++ endpoint ∧
          q.data = data ∧ q.params = params := by
  induction k generalizing c with
  | zero =>
    refine ⟨rfl, rfl, rfl, fun q hq => ?_⟩
    rcases List.mem_singleton.mp hq with rfl
    exact ⟨rfl, rfl, rfl, rfl⟩
  | succ k ih =>
    obtain ⟨ih1, ih2, ih3, ih4⟩ := ih
      { c with api_key := s,
               headers := setKey c.headers "Authorization" ("Bearer " ++ s) }
    refine ⟨ih1, ?_, ?_, ?_⟩
    · exact congrArg (· + 1) ih2
    · exact congrArg (List.cons s) ih3
    · intro q hq
      rcases List.mem_cons.mp hq with rfl | hq2
      · exact ⟨rfl, rfl, rfl, rfl⟩
      · exact ih4 q hq2

/-- Python dict assignment leaves the assigned key bound to the assigned
value. -/
theorem setKey_lookup (l : List (String × String)) (k v : String) :
    (setKey l k v).lookup k = some v := by
  induction l with
  | nil => simp [setKey, List.lookup]
  | cons h t ih =>
    obtain ⟨k0, v0⟩ := h
    by_cases hk : k0 = k
    · subst hk
      simp [setKey, List.lookup]
    · have h1 : (k0 == k) = false := beq_eq_false_iff_ne.mpr hk
      have h2 : (k == k0) = false := beq_eq_false_iff_ne.mpr (Ne.symm hk)
      simp [setKey, h1, h2, List.lookup, ih]

/-- After a `VantaAPI.init` that returns normally, the Authorization
header carries the minted key. -/
theorem init_authInv (cid csec burl : String) (tk : TokenResponse)
    (c0 : Client) (h : VantaAPI.init cid csec burl tk = .ok c0) :
    authInv c0 := by
  unfold VantaAPI.init at h
  cases hg : get_access_token tk with
  | error e => rw [hg] at h; cases h
  | ok key =>
    rw [hg] at h
    cases h
    simp [authInv, List.lookup]

/-- The Authorization headers of the successive requests sent by one
logical `_make_request` call are exactly: the key held on entry, then
each minted token in order of refresh — so every retried request carries
the token minted immediately before it. -/
theorem make_request_auth (method endpoint : String) (data : Option Json)
    (params : Option Params) (c : Client) (rs : List HttpResponse)
    (ts : List TokenResponse) (hc : authInv c) :
    authInv (make_request method endpoint data params c rs ts).client ∧
      (make_request method endpoint data params c rs ts).sent.map
          (fun q => q.headers.lookup "Authorization") =
        some ("Bearer " ++ c.api_key) ::
          (make_request method endpoint data params c rs ts).minted.map
            (fun tk => some ("Bearer " ++ tk)) := by
  induction rs generalizing c ts with
  | nil =>
    have hc' : c.headers.lookup "Authorization" =
        some ("Bearer " ++ c.api_key) := hc
    exact ⟨hc, by simp only [make_request, List.map_cons, List.map_nil, hc']⟩
  | cons r rs ih =>
    have hc' : c.headers.lookup "Authorization" =
        some ("Bearer " ++ c.api_key) := hc
    simp only [make_request]
    split
    · split <;> exact ⟨hc, by simp only [List.map_cons, List.map_nil, hc']⟩
    · split
      · cases ts with
        | nil => exact ⟨hc, by simp only [List.map_cons, List.map_nil, hc']⟩
        | cons t ts2 =>
          cases hg : get_access_token t with
          | error e2 =>
            simp only [hg]
            exact ⟨hc, by simp only [List.map_cons, List.map_nil, hc']⟩
          | ok tok =>
            simp only [hg]
            have hc2 : authInv
                { c with api_key := tok,
                         headers := setKey c.headers "Authorization"
                           ("Bearer " ++ tok) } :=
              setKey_lookup c.headers "Authorization" ("Bearer " ++ tok)
            obtain ⟨ih1, ih2⟩ := ih _ ts2 hc2
            exact ⟨ih1, by simp only [List.map_cons, hc', ih2]⟩
      · split <;> exact ⟨hc, by simp only [List.map_cons, List.map_nil, hc']⟩

/-- C9: the invariant `headers["Authorization"] == "Bearer " + api_key`
is established by construction and preserved by `_make_request`; on a
401-triggered refresh both the stored key and the header are updated
before the retry, so the request sent after the i-th refresh carries the
i-th minted token (the sent Authorization headers are exactly the entry
key followed by the minted tokens in order). -/
theorem c9_auth_header_invariant (method endpoint : String)
    (data : Option Json) (params : Option Params) (c : Client)
    (rs : List HttpResponse) (ts : List TokenResponse) (hc : authInv c) :
    (∀ cid csec burl tk c0,
        VantaAPI.init cid csec burl tk = .ok c0 → authInv c0) ∧
      authInv (make_request method endpoint data params c rs ts).client ∧
      (make_request method endpoint data params c rs ts).sent.map
          (fun q => q.headers.lookup "Authorization") =
        some ("Bearer " ++ c.api_key) ::
          (make_request method endpoint data params c rs ts).minted.map
            (fun tk => some ("Bearer " ++ tk)) :=
  ⟨fun cid csec burl tk c0 h => init_authInv cid csec burl tk c0 h,
    (make_request_auth method endpoint data params c rs ts hc).1,
    (make_request_auth method endpoint data params c rs ts hc).2⟩

/-- Witness for C9: the concrete client and a 401-then-success trace; the
two requests carry the old and the freshly minted token respectively. -/
theorem c9_auth_header_invariant_witness :
    authInv initialClient ∧
      (make_request "GET" "organizations" none none initialClient
          [⟨401, .empty⟩, ⟨200, .json .null⟩] [⟨200, some "t1"⟩]).sent.map
          (fun q => q.headers.lookup "Authorization") =
        some ("Bearer " ++ initialClient.api_key) ::
          (make_request "GET" "organizations" none none initialClient
              [⟨401, .empty⟩, ⟨200, .json .null⟩] [⟨200, some "t1"⟩]).minted.map
            (fun tk => some ("Bearer " ++ tk)) :=
  ⟨rfl,
    (c9_auth_header_invariant "GET" "organizations" none none initialClient
      [⟨401, .empty⟩, ⟨200, .json .null⟩] [⟨200, some "t1"⟩] rfl).2.2⟩

/-- One pagination-loop iteration on a page with `hasNextPage` true:
append the records, record the call, and loop with `pageCursor` set to
the `endCursor` of the page. -/
theorem get_all_pages_step (server : Params → Except VErr (Option Json))
    (fuel : ℕ) (ps : ℤ) (pc : Option Json) (results : List Json)
    (calls : List Params) (recs : List Json) (cur : Json)
    (hs : server ⟨ps, pc⟩ = .ok (some (page recs true cur))) :
    get_all_pages server (fuel + 1) ⟨ps, pc⟩ results calls =
      get_all_pages server fuel ⟨ps, some cur⟩ (results ++ recs)
        (calls ++ [⟨ps, pc⟩]) := by
  conv_lhs => unfold get_all_pages
  rw [hs]
  rfl

/-- The last pagination-loop iteration, on a page with `hasNextPage`
false: append the records, record the call, and stop. -/
theorem get_all_pages_last (server : Params → Except VErr (Option Json))
    (fuel : ℕ) (ps : ℤ) (pc : Option Json) (results : List Json)
    (calls : List Params) (recs : List Json) (cur : Json)
    (hs : server ⟨ps, pc⟩ = .ok (some (page recs false cur))) :
    get_all_pages server (fuel + 1) ⟨ps, pc⟩ results calls =
      ⟨.records (results ++ recs), calls ++ [⟨ps, pc⟩]⟩ := by
  conv_lhs => unfold get_all_pages
  rw [hs]
  rfl

/-- C4: on a server answering three pages of two records each, with
hasNextPage true on the first two pages and false on the third, the
traversal returns exactly the six records in page order and issues
exactly three underlying calls, passing the endCursor of each page as
the pageCursor of the following call. -/
theorem c4_three_pages (server : Params → Except VErr (Option Json))
    (page_size : ℤ) (fuel : ℕ) (hf : 3 ≤ fuel)
    (r1 r2 r3 r4 r5 r6 cur1 cur2 cur3 : Json)
    (h1 : server ⟨page_size, none⟩ =
      .ok (some (page [r1, r2] true cur1)))
    (h2 : server ⟨page_size, some cur1⟩ =
      .ok (some (page [r3, r4] true cur2)))
    (h3 : server ⟨page_size, some cur2⟩ =
      .ok (some (page [r5, r6] false cur3))) :
    get_all_organizations server page_size fuel =
      ⟨.records [r1, r2, r3, r4, r5, r6],
        [⟨page_size, none⟩, ⟨page_size, some cur1⟩,
          ⟨page_size, some cur2⟩]⟩ := by
  obtain ⟨m, rfl⟩ : ∃ m, fuel = m + 3 := ⟨fuel - 3, by omega⟩
  show get_all_pages server (m + 2 + 1) ⟨page_size, none⟩ [] [] = _
  rw [get_all_pages_step server (m + 2) page_size none [] [] [r1, r2] cur1 h1]
  show get_all_pages server (m + 1 + 1) _ _ _ = _
  rw [get_all_pages_step server (m + 1) page_size (some cur1)
    ([] ++ [r1, r2]) ([] ++ [Params.mk page_size none]) [r3, r4] cur2 h2]
  show get_all_pages server (m + 1) _ _ _ = _
  rw [get_all_pages_last server m page_size (some cur2)
    ([] ++ [r1, r2] ++ [r3, r4])
    ([] ++ [Params.mk page_size none] ++ [Params.mk page_size (some cur1)])
    [r5, r6] cur3 h3]
  simp

/-- Witness for C4: the concrete three-page server, minimal fuel. -/
theorem c4_three_pages_witness :
    3 ≤ 3 ∧
      get_all_organizations threePageServer 100 3 =
        ⟨.records [.str "r1", .str "r2", .str "r3", .str "r4",
            .str "r5", .str "r6"],
          [⟨100, none⟩, ⟨100, some (.str "c1")⟩, ⟨100, some (.str "c2")⟩]⟩ :=
  ⟨le_refl 3,
    c4_three_pages threePageServer 100 3 (le_refl 3)
      (.str "r1") (.str "r2") (.str "r3") (.str "r4") (.str "r5") (.str "r6")
      (.str "c1") (.str "c2") (.str "c3") rfl rfl rfl⟩

/-- C5: when the first response of the pagination traversal is `None`,
falsy, or lacks a data field, the traversal returns no records and
issues exactly one underlying call. -/
theorem c5_empty_first_page (server : Params → Except VErr (Option Json))
    (page_size : ℤ) (fuel : ℕ) (hf : 1 ≤ fuel) (resp : Option Json)
    (hresp : server ⟨page_size, none⟩ = .ok resp)
    (hempty : resp = none ∨
      ∃ j, resp = some j ∧
        (j.truthy = false ∨ j.mem "data" = some false)) :
    get_all_organizations server page_size fuel =
      ⟨.records [], [⟨page_size, none⟩]⟩ := by
  obtain ⟨m, rfl⟩ : ∃ m, fuel = m + 1 := ⟨fuel - 1, by omega⟩
  unfold get_all_organizations get_all_pages
  rw [hresp]
  rcases hempty with rfl | ⟨j, rfl, hj⟩
  · rfl
  · by_cases ht : j.truthy
    · rcases hj with hj | hj
      · rw [ht] at hj
        cases hj
      · simp [ht, hj]
    · simp [Bool.not_eq_true] at ht
      simp [ht]

/-- Witness for C5: the concrete always-`None` server, minimal fuel. -/
theorem c5_empty_first_page_witness :
    1 ≤ 1 ∧ emptyServer ⟨100, none⟩ = .ok none ∧
      get_all_organizations emptyServer 100 1 =
        ⟨.records [], [⟨100, none⟩]⟩ :=
  ⟨le_refl 1, rfl,
    c5_empty_first_page emptyServer 100 1 (le_refl 1) none rfl (Or.inl rfl)⟩

/-- An entry time dominates the request time. -/
theorem le_foldl_max (l : List ℚ) (t : ℚ) : t ≤ l.foldl max t := by
  induction l generalizing t with
  | nil => exact le_refl t
  | cons s l ih => exact le_trans (le_max_left t s) (ih (max t s))

/-- An entry time dominates every recorded admission. -/
theorem mem_le_foldl_max (l : List ℚ) (t s : ℚ) (hs : s ∈ l) :
    s ≤ l.foldl max t := by
  induction l generalizing t with
  | nil => cases hs
  | cons a l ih =>
    rcases List.mem_cons.mp hs with rfl | hs2
    · exact le_trans (le_max_right t s) (le_foldl_max l (max t s))
    · exact ih (max t a) hs2

/-- A later trailing window sees no more admissions than the window at a
time that dominates every admission. -/
theorem windowCount_le_of_le (P : ℚ) (calls : List ℚ) (a t : ℚ)
    (hat : a ≤ t) (hall : ∀ s ∈ calls, s ≤ a) :
    windowCount P calls t ≤ windowCount P calls a := by
  apply List.countP_mono_left
  intro s hs hp
  simp only [decide_eq_true_eq] at hp ⊢
  exact ⟨lt_of_le_of_lt (by linarith) hp.1, hall s hs⟩

/-- Appending one admission that dominates the recorded ones and whose
own trailing window is below the quota keeps every trailing window at or
below the quota. -/
theorem windowCount_append_le (N : ℕ) (P : ℚ) (calls : List ℚ) (a : ℚ)
    (hb : ∀ t, windowCount P calls t ≤ N)
    (hall : ∀ s ∈ calls, s ≤ a)
    (ha : windowCount P calls a < N) :
    ∀ t, windowCount P (calls ++ [a]) t ≤ N := by
  intro t
  have hadd : windowCount P (calls ++ [a]) t =
      windowCount P calls t + windowCount P [a] t := by
    unfold windowCount
    rw [List.countP_append]
  have hsing : windowCount P [a] t ≤ 1 := List.countP_le_length _
  by_cases hp : (t - P < a ∧ a ≤ t)
  · have h2 : windowCount P calls t ≤ windowCount P calls a :=
      windowCount_le_of_le P calls a t hp.2 hall
    omega
  · have hz : windowCount P [a] t = 0 := by
      unfold windowCount
      rw [List.countP_eq_zero]
      intro x hx
      rcases List.mem_singleton.mp hx with rfl
      simpa using hp
    have := hb t
    omega

/-- Recorded admissions followed by a dominating one remain sorted. -/
theorem sorted_append_singleton (l : List ℚ) (a : ℚ)
    (hs : l.Sorted (· ≤ ·)) (hall : ∀ s ∈ l, s ≤ a) :
    (l ++ [a]).Sorted (· ≤ ·) := by
  rw [List.Sorted, List.pairwise_append]
  refine ⟨hs, List.pairwise_singleton _ _, fun x hx b hb => ?_⟩
  rcases List.mem_singleton.mp hb with rfl
  exact hall x hx

/-- When the trailing window at `t1` is at quota, the oldest of the last
`max_calls` recorded admissions is still inside that window, and the
window ending one period after it holds strictly fewer than `max_calls`
admissions. -/
theorem full_window_bound (N : ℕ) (P : ℚ) (calls : List ℚ) (t1 : ℚ)
    (hN : 0 < N) (hsort : calls.Sorted (· ≤ ·))
    (hfull : N ≤ windowCount P calls t1) :
    t1 - P < (calls.drop (calls.length - N)).headD t1 ∧
      windowCount P calls
        ((calls.drop (calls.length - N)).headD t1 + P) < N := by
  have hNn : N ≤ calls.length :=
    le_trans hfull (List.countP_le_length _)
  have hdrop : (calls.drop (calls.length - N)).length = N := by
    rw [List.length_drop]; omega
  cases htail : calls.drop (calls.length - N) with
  | nil => rw [htail] at hdrop; simp at hdrop; omega
  | cons o t2 =>
    simp only [List.headD_cons]
    have hlen2 : t2.length = N - 1 := by
      rw [htail] at hdrop; simp at hdrop; omega
    have hft : calls.take (calls.length - N) ++ (o :: t2) = calls := by
      rw [← htail]; exact List.take_append_drop _ calls
    have hsort2 : List.Pairwise (· ≤ ·)
        (calls.take (calls.length - N) ++ (o :: t2)) := by
      rw [hft]; exact hsort
    obtain ⟨_, _, hcross⟩ := List.pairwise_append.mp hsort2
    have hx_le_o : ∀ x ∈ calls.take (calls.length - N), x ≤ o :=
      fun x hx => hcross x hx o (List.mem_cons_self o t2)
    have hsplit : ∀ u : ℚ, windowCount P calls u =
        windowCount P (calls.take (calls.length - N)) u +
          windowCount P (o :: t2) u := by
      intro u
      unfold windowCount
      conv_lhs => rw [← hft]
      rw [List.countP_append]
    have hA : t1 - P < o := by
      by_contra hA
      push_neg at hA
      have hf0 : windowCount P (calls.take (calls.length - N)) t1 = 0 := by
        unfold windowCount
        rw [List.countP_eq_zero]
        intro x hx
        simp only [decide_eq_true_eq]
        rintro ⟨hgt, _⟩
        have := hx_le_o x hx
        linarith
      have hc1 : windowCount P (o :: t2) t1 = windowCount P t2 t1 := by
        unfold windowCount
        rw [List.countP_cons]
        have : ¬ (t1 - P < o ∧ o ≤ t1) := fun h => absurd h.1 (by linarith)
        simp [this]
      have hc2 : windowCount P t2 t1 ≤ N - 1 := by
        calc windowCount P t2 t1 ≤ t2.length := List.countP_le_length _
        _ = N - 1 := hlen2
      have := hsplit t1
      omega
    refine ⟨hA, ?_⟩
    have hf0 : windowCount P (calls.take (calls.length - N)) (o + P) = 0 := by
      unfold windowCount
      rw [List.countP_eq_zero]
      intro x hx
      simp only [decide_eq_true_eq]
      rintro ⟨hgt, _⟩
      have := hx_le_o x hx
      linarith
    have hc1 : windowCount P (o :: t2) (o + P) = windowCount P t2 (o + P) := by
      unfold windowCount
      rw [List.countP_cons]
      have : ¬ (o + P - P < o ∧ o ≤ o + P) := fun h => absurd h.1 (by linarith)
      simp [this]
    have hc2 : windowCount P t2 (o + P) ≤ N - 1 := by
      calc windowCount P t2 (o + P) ≤ t2.length := List.countP_le_length _
      _ = N - 1 := hlen2
    have := hsplit (o + P)
    omega

/-- The admission time dominates the request time and every recorded
admission, and its own trailing window is strictly below the quota. -/
theorem admissionTime_spec (rl : RateLimiter) (t : ℚ)
    (hN : 0 < rl.max_calls) (hinv : RLInv rl) :
    t ≤ admissionTime rl t ∧ (∀ s ∈ rl.calls, s ≤ admissionTime rl t) ∧
      windowCount rl.period rl.calls (admissionTime rl t) < rl.max_calls := by
  obtain ⟨hsort, hbound⟩ := hinv
  have ht1 : t ≤ entryTime rl t := le_foldl_max rl.calls t
  have hall : ∀ s ∈ rl.calls, s ≤ entryTime rl t :=
    fun s hs => mem_le_foldl_max rl.calls t s hs
  unfold admissionTime
  by_cases hw : windowCount rl.period rl.calls (entryTime rl t) < rl.max_calls
  · rw [if_pos hw]
    exact ⟨ht1, hall, hw⟩
  · rw [if_neg hw]
    push_neg at hw
    obtain ⟨hA, hC⟩ := full_window_bound rl.max_calls rl.period rl.calls
      (entryTime rl t) hN hsort hw
    have hta : entryTime rl t <
        (rl.calls.drop (rl.calls.length - rl.max_calls)).headD (entryTime rl t)
          + rl.period := by linarith
    exact ⟨le_of_lt (lt_of_le_of_lt ht1 hta),
      fun s hs => le_of_lt (lt_of_le_of_lt (hall s hs) hta), hC⟩

/-- One acquisition preserves the limiter invariant, appends exactly one
admission, keeps the configuration, and never admits before the request
time. -/
theorem acquire_step (rl : RateLimiter) (t : ℚ) (hN : 0 < rl.max_calls)
    (hinv : RLInv rl) :
    RLInv (rl.acquire t).2 ∧
      (rl.acquire t).2.calls = rl.calls ++ [(rl.acquire t).1] ∧
      (rl.acquire t).2.max_calls = rl.max_calls ∧
      (rl.acquire t).2.period = rl.period ∧
      t ≤ (rl.acquire t).1 := by
  obtain ⟨hta, halla, hwa⟩ := admissionTime_spec rl t hN hinv
  obtain ⟨hsort, hbound⟩ := hinv
  exact ⟨⟨sorted_append_singleton _ _ hsort halla,
      windowCount_append_le rl.max_calls rl.period rl.calls _ hbound halla hwa⟩,
    rfl, rfl, rfl, hta⟩

/-- Running a sequence of acquisitions preserves the invariant, appends
the admissions in order, keeps the configuration, and admits every
request at or after its request time (in particular, none is dropped). -/
theorem run_spec (reqs : List ℚ) (rl : RateLimiter)
    (hN : 0 < rl.max_calls) (hinv : RLInv rl) :
    RLInv (rl.run reqs).2 ∧
      (rl.run reqs).2.calls = rl.calls ++ (rl.run reqs).1 ∧
      (rl.run reqs).2.max_calls = rl.max_calls ∧
      (rl.run reqs).2.period = rl.period ∧
      List.Forall₂ (· ≤ ·) reqs (rl.run reqs).1 := by
  induction reqs generalizing rl with
  | nil =>
    exact ⟨hinv, by simp [RateLimiter.run], rfl, rfl, List.Forall₂.nil⟩
  | cons t ts ih =>
    obtain ⟨hinv1, hcalls1, hmax1, hper1, hle1⟩ := acquire_step rl t hN hinv
    obtain ⟨hinv2, hcalls2, hmax2, hper2, hf2⟩ :=
      ih (rl.acquire t).2 (by rw [hmax1]; exact hN) hinv1
    refine ⟨hinv2, ?_, ?_, ?_, List.Forall₂.cons hle1 hf2⟩
    · show ((rl.acquire t).2.run ts).2.calls =
        rl.calls ++ ((rl.acquire t).1 :: ((rl.acquire t).2.run ts).1)
      rw [hcalls2, hcalls1]
      simp
    · show ((rl.acquire t).2.run ts).2.max_calls = rl.max_calls
      rw [hmax2, hmax1]
    · show ((rl.acquire t).2.run ts).2.period = rl.period
      rw [hper2, hper1]

/-- C2: for every sequence of requests issued through the client, the
limiter constructed in `VantaAPI.__init__` admits every request (none is
dropped or rejected), no earlier than its request time (a request that
would exceed the quota is delayed), and within every trailing window of
60 seconds at most 50 requests are admitted. -/
theorem c2_rate_limiter_window (reqs : List ℚ) :
    List.Forall₂ (· ≤ ·) reqs (initRateLimiter.run reqs).1 ∧
      (initRateLimiter.run reqs).1.length = reqs.length ∧
      ∀ t : ℚ, windowCount 60 (initRateLimiter.run reqs).1 t ≤ 50 := by
  have hinv : RLInv initRateLimiter := by
    refine ⟨List.sorted_nil, fun t => ?_⟩
    simp [windowCount, initRateLimiter]
  obtain ⟨⟨_, hbound⟩, hcalls, hmax, hper, hf⟩ :=
    run_spec reqs initRateLimiter (by decide) hinv
  refine ⟨hf, (List.Forall₂.length_eq hf).symm, fun t => ?_⟩
  have h := hbound t
  rw [hcalls, hper, hmax] at h
  simpa [initRateLimiter] using h

end Vanta
